import Mathlib

/-!
Shallow embedding of the command tree and flag-scoping engine of the
rsb/cli-go library (src/cmd.go, src/bash_completions.go).

Mutable Go state is modelled by explicit state passing on a `World` value:
a heap of `Cmd` records (indexed by `Nat`, playing the role of `*Cmd`
pointers) and a heap of `FlagSet` records (indexed by `Nat`, playing the
role of `*pflag.FlagSet` pointers).  A `none` in an `Option Nat` field is a
nil pointer.  Operations that can hit a Go runtime fault (nil dereference,
index out of range, pflag redefinition) return `Option`, with `none` for
the fault.  Recursions that follow parent pointers take a fuel argument,
since Go would diverge on a cyclic parent chain; every world of interest
is a finite tree and is run with ample fuel.

The flag-value library github.com/rsb/pflag is an external collaborator
(a fork of spf13/pflag); its operations used here (NewFlagSet, Lookup,
ShortLookup, NoOptDefVal, AddFlag, AddFlagSet, VisitAll,
Flag.Annotations) are modelled from the pflag semantics: a set holds
uniquely named flags in registration order, VisitAll iterates in
ascending name order when SortFlags is set (NewFlagSet sets it), and
AddFlagSet copies over only flags whose name is not yet present.
-/

namespace CliGo

/-! String helpers over the character list, mirroring the Go byte-level
operations.  Every string these operations are applied to in the claims
is ASCII, where Go byte indexing and character indexing agree; the
builtin Lean String functions work on UTF-8 byte positions and do not
reduce inside the kernel, so the list forms are used instead. -/

/-- strings.HasPrefix. -/
def goHasPre (s pre : String) : Bool :=
  pre.data.isPrefixOf s.data

/-- strings.Contains with a one character needle. -/
def goContainsChar (s : String) (c : Char) : Bool :=
  s.data.contains c

/-- The Go slice s[n:]. -/
def goDrop (s : String) (n : Nat) : String :=
  String.mk (s.data.drop n)

/-- The Go slice s[:n]. -/
def goTake (s : String) (n : Nat) : String :=
  String.mk (s.data.take n)

/-- strings.Join. -/
def goJoin (sep : String) : List String → String
  | [] => ""
  | [x] => x
  | x :: rest => x ++ sep ++ goJoin sep rest

/-- Lexicographic order on character lists by code point (equal to the Go
byte-wise string order on ASCII data). -/
def goCharsLt : List Char → List Char → Bool
  | [], [] => false
  | [], _ :: _ => true
  | _ :: _, [] => false
  | a :: as, b :: bs =>
    if a.val.toNat < b.val.toNat then true
    else if b.val.toNat < a.val.toNat then false
    else goCharsLt as bs

/-- The Go string comparison a < b. -/
def goStrLt (a b : String) : Bool :=
  goCharsLt a.data b.data

/-- One pflag flag definition: name, one-letter shorthand, the
NoOptDefVal marker (nonempty exactly for flags that need no value token),
the Annotations side channel, and the Changed bit set by parsing. -/
structure GoFlag where
  name : String
  shorthand : String
  noOptDefVal : String
  anns : List (String × List String)
  changed : Bool
deriving DecidableEq, Repr

/-- A pflag FlagSet: its name, the SortFlags option and the registered
flags in registration order. -/
structure FlagSet where
  fsName : String
  sortFlags : Bool
  formal : List GoFlag
deriving DecidableEq, Repr

/-- pflag FlagSet.Lookup: find a flag by name. -/
def FlagSet.lookup (fs : FlagSet) (n : String) : Option GoFlag :=
  fs.formal.find? (fun fl => fl.name == n)

/-- pflag FlagSet.ShortLookup: find a flag by its shorthand letter. -/
def FlagSet.shortLookup (fs : FlagSet) (sh : String) : Option GoFlag :=
  fs.formal.find? (fun fl => fl.shorthand == sh)

/-- Insert a flag into a name-sorted list (helper for `visitOrder`). -/
def insertFlagByName (fl : GoFlag) : List GoFlag → List GoFlag
  | [] => [fl]
  | g :: gs => if goStrLt g.name fl.name then g :: insertFlagByName fl gs else fl :: g :: gs

/-- Sort flags by ascending name (names inside one set are unique, so any
correct sort gives the same list pflag produces). -/
def sortFlagsByName : List GoFlag → List GoFlag
  | [] => []
  | fl :: gs => insertFlagByName fl (sortFlagsByName gs)

/-- The iteration order of pflag FlagSet.VisitAll: ascending name order
when SortFlags is set, else registration order. -/
def FlagSet.visitOrder (fs : FlagSet) : List GoFlag :=
  if fs.sortFlags then sortFlagsByName fs.formal else fs.formal

/-- pflag FlagSet.AddFlag: reject (Go panics on) a redefinition, else
append. -/
def FlagSet.addFlag (fs : FlagSet) (fl : GoFlag) : Option FlagSet :=
  if (fs.lookup fl.name).isSome then none
  else some { fs with formal := fs.formal ++ [fl] }

/-- The body of pflag FlagSet.AddFlagSet: copy each flag of the source
list into `dst` unless a flag of the same name is already there. -/
def FlagSet.addAll (dst : FlagSet) (fls : List GoFlag) : FlagSet :=
  fls.foldl
    (fun acc fl =>
      if (acc.lookup fl.name).isSome then acc
      else { acc with formal := acc.formal ++ [fl] })
    dst

/-- src/cmd.go hasNoOptDefVal (lines 1253-1260). -/
def hasNoOptDefVal (n : String) (fs : FlagSet) : Bool :=
  match fs.lookup n with
  | none => false
  | some fl => fl.noOptDefVal != ""

/-- src/cmd.go shortHasNoOptDefVal (lines 1262-1273). -/
def shortHasNoOptDefVal (n : String) (fs : FlagSet) : Bool :=
  if n.data.length == 0 then false
  else
    match fs.shortLookup (goTake n 1) with
    | none => false
    | some fl => fl.noOptDefVal != ""

/-- MaxLengths (src/cmd.go lines 1074-1078). -/
structure MaxLengths where
  use : Nat
  path : Nat
  name : Nat
deriving DecidableEq, Repr

/-- MaxLengths.Reset (src/cmd.go lines 1081-1085).  The Go receiver is a
VALUE, so the zeroing is applied to a copy; the returned record is that
copy, which every caller in the source discards. -/
def MaxLengths.Reset (_ml : MaxLengths) : MaxLengths :=
  { use := 0, path := 0, name := 0 }

/-- The fields of Cmd (src/cmd.go lines 508-654) that the verified claims
touch, with the embedded Flags record (lines 1114-1123) inlined:
`full`, `global`, `parentsGlobal` are the Full, Global and ParentsGlobal
FlagSet pointers, `errorBuf` records whether ErrorBuf is allocated, and
`hasGlobalNormalizeFn` whether GlobalNormalizeFn is set.  `commands` and
`parent` hold command pointers (heap indices). -/
structure Cmd where
  use : String
  aliases : List String
  commands : List Nat
  parent : Option Nat
  full : Option Nat
  global : Option Nat
  parentsGlobal : Option Nat
  hasGlobalNormalizeFn : Bool
  errorBuf : Bool
  isSortedCmds : Bool
  calledAsName : String
  maxLength : MaxLengths
  disableFlagParsing : Bool
deriving Repr

/-- Cmd.Name (src/cmd.go lines 657-665): strings.Index finds the first
space and the name is the prefix before it (the whole Use line when no
space occurs), which is exactly the longest space-free prefix. -/
def Cmd.Name (c : Cmd) : String :=
  String.mk (c.use.data.takeWhile (fun ch => ch != ' '))

/-- Cmd.HasParent (src/cmd.go lines 732-734). -/
def Cmd.HasParent (c : Cmd) : Bool :=
  c.parent.isSome

/-- Cmd.HasAlias (src/cmd.go lines 769-776). -/
def Cmd.HasAlias (c : Cmd) (s : String) : Bool :=
  c.aliases.contains s

/-- Flags.IsFull (src/cmd.go lines 1160-1162).  The source tests Global,
not Full: `return f.Global != nil`. -/
def Flags.IsFull (c : Cmd) : Bool :=
  c.global.isSome

/-- Flags.IsGlobal (src/cmd.go lines 1169-1171): `return f.Global != nil`. -/
def Flags.IsGlobal (c : Cmd) : Bool :=
  c.global.isSome

/-- Flags.IsParentsGlobalFlags (src/cmd.go lines 1129-1131):
`return f.ParentsGlobal == nil`. -/
def Flags.IsParentsGlobalFlags (c : Cmd) : Bool :=
  c.parentsGlobal.isNone

/-- The whole mutable program state: the Cmd heap, the FlagSet heap with
its allocation counter, and the process wide pflag CommandLine set. -/
structure World where
  cmds : Nat → Cmd
  flagSets : Nat → FlagSet
  nextFS : Nat
  commandLine : FlagSet

/-- Write one Cmd heap cell. -/
def World.setCmd (w : World) (i : Nat) (c : Cmd) : World :=
  { w with cmds := fun j => if j = i then c else w.cmds j }

/-- Write one FlagSet heap cell. -/
def World.setFS (w : World) (i : Nat) (fs : FlagSet) : World :=
  { w with flagSets := fun j => if j = i then fs else w.flagSets j }

/-- Allocate a fresh FlagSet heap cell (a Go allocation site); returns the
new pointer. -/
def World.allocFS (w : World) (fs : FlagSet) : World × Nat :=
  ({ w with
      flagSets := fun j => if j = w.nextFS then fs else w.flagSets j,
      nextFS := w.nextFS + 1 },
   w.nextFS)

/-- newFlagSet (src/cmd.go lines 1184-1186): pflag NewFlagSet with
ContinueOnError; pflag initializes SortFlags to true. -/
def newFlagSet (n : String) : FlagSet :=
  { fsName := n, sortFlags := true, formal := [] }

/-- Flags.LoadFullSet (src/cmd.go lines 1164-1167): allocate the Full set
and ensure the shared error buffer. -/
def World.loadFullSet (w : World) (i : Nat) : World :=
  let c := w.cmds i
  let r := w.allocFS (newFlagSet c.Name)
  r.1.setCmd i { c with full := some r.2, errorBuf := true }

/-- Flags.LoadGlobalSet (src/cmd.go lines 1173-1176). -/
def World.loadGlobalSet (w : World) (i : Nat) : World :=
  let c := w.cmds i
  let r := w.allocFS (newFlagSet c.Name)
  r.1.setCmd i { c with global := some r.2, errorBuf := true }

/-- Flags.LoadParentsGlobal (src/cmd.go lines 1133-1137): like the others
but with SortFlags switched off. -/
def World.loadParentsGlobal (w : World) (i : Nat) : World :=
  let c := w.cmds i
  let r := w.allocFS { newFlagSet c.Name with sortFlags := false }
  r.1.setCmd i { c with parentsGlobal := some r.2, errorBuf := true }

/-- Cmd.Flags (src/cmd.go lines 808-814): load the Full set when IsFull
is false, then return the Full pointer (which is nil, `none`, when
Global was loaded first). -/
def Cmd.Flags (w : World) (i : Nat) : World × Option Nat :=
  if Flags.IsFull (w.cmds i) then (w, (w.cmds i).full)
  else
    let w1 := w.loadFullSet i
    (w1, (w1.cmds i).full)

/-- Cmd.GlobalFlags (src/cmd.go lines 818-824). -/
def Cmd.GlobalFlags (w : World) (i : Nat) : World × Option Nat :=
  if Flags.IsGlobal (w.cmds i) then (w, (w.cmds i).global)
  else
    let w1 := w.loadGlobalSet i
    (w1, (w1.cmds i).global)

/-- pflag FlagSet.AddFlagSet on a possibly nil destination pointer and a
possibly nil source pointer (the source is passed by value since it is
only read).  A nil source returns at once; a nil destination is
dereferenced as soon as the first source flag is visited, a Go runtime
fault (`none`). -/
def World.addFlagSetInto (w : World) (dst : Option Nat) (src : Option FlagSet) : Option World :=
  match src with
  | none => some w
  | some s =>
    match dst with
    | none => if s.visitOrder.isEmpty then some w else none
    | some d => some (w.setFS d ((w.flagSets d).addAll s.visitOrder))

/-- Cmd.Root (src/cmd.go lines 788-794), with fuel bounding the parent
chain walk. -/
def World.rootOf (w : World) (i : Nat) : Nat → Nat
  | 0 => i
  | fuel + 1 =>
    match (w.cmds i).parent with
    | none => i
    | some p => w.rootOf p fuel

/-- The ancestor list nearest first, the order Cmd.VisitParents
(src/cmd.go lines 797-804) applies its callback in. -/
def World.ancestorsOf (w : World) (i : Nat) : Nat → List Nat
  | 0 => []
  | fuel + 1 =>
    match (w.cmds i).parent with
    | none => []
    | some p => p :: w.ancestorsOf p fuel

/-- The VisitParents loop of updateParentGlobalFlags (src/cmd.go lines
970-972): for each parent, `c.flags.ParentsGlobal.AddFlagSet(parent.GlobalFlags())`.
The ParentsGlobal pointer of `i` is re-read from the current world at
each call, as the Go closure does. -/
def World.visitParentsMerge (w : World) (i : Nat) : List Nat → Option World
  | [] => some w
  | p :: rest =>
    let r := Cmd.GlobalFlags w p
    match r.1.addFlagSetInto ((r.1.cmds i).parentsGlobal)
        (r.2.map (fun j => r.1.flagSets j)) with
    | none => none
    | some w2 => w2.visitParentsMerge i rest

/-- Cmd.updateParentGlobalFlags (src/cmd.go lines 959-973).  Note the
guard on the first line of the source: it loads ParentsGlobal only when
IsParentsGlobalFlags is FALSE, that is when the pointer is already
non-nil; a nil ParentsGlobal is left nil.  SetNormalizeFunc on a nil
ParentsGlobal is a runtime fault. -/
def Cmd.updateParentGlobalFlags (fuel : Nat) (w : World) (i : Nat) : Option World :=
  let w1 := if !(Flags.IsParentsGlobalFlags (w.cmds i)) then w.loadParentsGlobal i else w
  if (w1.cmds i).hasGlobalNormalizeFn && (w1.cmds i).parentsGlobal.isNone then none
  else
    let r := Cmd.GlobalFlags w1 (w1.rootOf i fuel)
    match r.1.addFlagSetInto r.2 (some r.1.commandLine) with
    | none => none
    | some w3 => w3.visitParentsMerge i (w3.ancestorsOf i fuel)

/-- Cmd.mergeGlobalFlags (src/cmd.go lines 950-954): update the parent
global set, then `c.Flags().AddFlagSet(c.GlobalFlags())` and
`c.Flags().AddFlagSet(c.flags.ParentsGlobal)` (each receiver is a fresh
Cmd.Flags call, evaluated before its argument). -/
def Cmd.mergeGlobalFlags (fuel : Nat) (w : World) (i : Nat) : Option World :=
  match Cmd.updateParentGlobalFlags fuel w i with
  | none => none
  | some w1 =>
    let rf := Cmd.Flags w1 i
    let rg := Cmd.GlobalFlags rf.1 i
    match rg.1.addFlagSetInto rf.2 (rg.2.map (fun j => rg.1.flagSets j)) with
    | none => none
    | some w4 =>
      let rf2 := Cmd.Flags w4 i
      rf2.1.addFlagSetInto rf2.2
        (((rf2.1.cmds i).parentsGlobal).map (fun j => rf2.1.flagSets j))

/-- The scanning loop of stripFlags (src/cmd.go lines 1204-1228) over the
remaining args and the accumulated positional tokens, for a non-nil flag
set.  The first branch is the "--" terminator case; the second merges
the Go case for long tokens (which falls through) with the case for
two-character short tokens, a sound merge because the case conditions
are pure and the later case body runs exactly when the earlier condition
or, failing that, its own condition holds; when it fires, the next token
is deleted as the flag value, or scanning breaks when at most one token
remains; then come the positional case and the silent default. -/
def stripLoop (fs : FlagSet) : List String → List String → List String
  | [], commands => commands
  | s :: rest, commands =>
    if s == "--" then commands
    else if (goHasPre s "--" && !(goContainsChar s '=')
              && !(hasNoOptDefVal (goDrop s 2) fs))
         || (goHasPre s "-" && !(goContainsChar s '=') && s.data.length == 2
              && !(shortHasNoOptDefVal (goDrop s 1) fs)) then
      match rest with
      | [] => commands
      | [_] => commands
      | _ :: rest2 => stripLoop fs rest2 commands
    else if s != "" && !(goHasPre s "-") then
      stripLoop fs rest (commands ++ [s])
    else
      stripLoop fs rest commands

/-- The same loop run against a nil flag set pointer (which Cmd.Flags can
return): the moment a token makes the Go code call hasNoOptDefVal or
shortHasNoOptDefVal, pflag Lookup dereferences the nil set, a runtime
fault (`none`); the "--", positional and default cases never touch the
set.  The fault conditions are the short-circuit prefixes of the Go case
conditions before the Lookup call. -/
def stripLoopNil : List String → List String → Option (List String)
  | [], commands => some commands
  | s :: rest, commands =>
    if s == "--" then some commands
    else if goHasPre s "--" && !(goContainsChar s '=') then none
    else if goHasPre s "-" && !(goContainsChar s '=') && s.data.length == 2 then none
    else if s != "" && !(goHasPre s "-") then
      stripLoopNil rest (commands ++ [s])
    else
      stripLoopNil rest commands

/-- The scan loop dispatched on the flag set pointer. -/
def stripLoopGo (fs : Option FlagSet) (args commands : List String) : Option (List String) :=
  match fs with
  | none => stripLoopNil args commands
  | some f => some (stripLoop f args commands)

/-- stripFlags (src/cmd.go lines 1194-1231): return empty args at once,
else merge the global flags, take the Full set and run the scan loop. -/
def stripFlags (fuel : Nat) (w : World) (args : List String) (i : Nat) :
    Option (World × List String) :=
  if args.isEmpty then some (w, args)
  else
    match Cmd.mergeGlobalFlags fuel w i with
    | none => none
    | some w1 =>
      let r := Cmd.Flags w1 i
      match stripLoopGo (r.2.map (fun j => r.1.flagSets j)) args [] with
      | none => none
      | some commands => some (r.1, commands)

/-- Cmd.Path (src/cmd.go lines 779-785), fuel bounded. -/
def Cmd.Path (fuel : Nat) (w : World) (i : Nat) : String :=
  match fuel, (w.cmds i).parent with
  | fuel' + 1, some p => Cmd.Path fuel' w p ++ " " ++ (w.cmds i).Name
  | _, _ => (w.cmds i).Name

/-- Cmd.updateMaxLengthFrom (src/cmd.go lines 991-1006): raise the three
cached maxima of node `i` from child `x`.  Go len() is the byte length;
all names in scope here are ASCII so String.length agrees. -/
def Cmd.updateMaxLengthFrom (fuel : Nat) (w : World) (i x : Nat) : World :=
  let c := w.cmds i
  let child := w.cmds x
  let ml := c.maxLength
  let ml := if child.use.data.length > ml.use then { ml with use := child.use.data.length } else ml
  let pl := (Cmd.Path fuel w x).data.length
  let ml := if pl > ml.path then { ml with path := pl } else ml
  let nl := child.Name.data.length
  let ml := if nl > ml.name then { ml with name := nl } else ml
  w.setCmd i { c with maxLength := ml }

/-- Cmd.resetMaxLengths (src/cmd.go lines 987-989): it invokes
MaxLengths.Reset, whose value receiver means the zeroed copy is dropped
and the stored maxima stay as they were. -/
def Cmd.resetMaxLengths (w : World) (i : Nat) : World :=
  let _ := MaxLengths.Reset (w.cmds i).maxLength
  w

/-- One iteration of the Cmd.Add loop body (src/cmd.go lines 915-922) for
a child `x` that is not the node itself: set the parent pointer, update
the cached maxima, propagate the normalization function when enabled,
append to commands and mark the order unsorted. -/
def addChildStep (fuel : Nat) (w : World) (i x : Nat) : World :=
  let w1 := w.setCmd x { w.cmds x with parent := some i }
  let w2 := Cmd.updateMaxLengthFrom fuel w1 i x
  let w3 :=
    if (w2.cmds i).hasGlobalNormalizeFn then
      w2.setCmd x { w2.cmds x with hasGlobalNormalizeFn := true }
    else w2
  w3.setCmd i
    { w3.cmds i with
        commands := (w3.cmds i).commands ++ [x],
        isSortedCmds := false }

/-- Cmd.Add (src/cmd.go lines 909-924).  The Boolean is true when the Go
code panics because the node is handed itself; mutations made for
earlier children in the list are kept, as a Go panic does not undo them. -/
def Cmd.Add (fuel : Nat) (w : World) (i : Nat) : List Nat → World × Bool
  | [] => (w, false)
  | x :: rest =>
    if x = i then (w, true)
    else Cmd.Add fuel (addChildStep fuel w i x) i rest

/-- Cmd.Remove (src/cmd.go lines 927-946).  The MAIN loop clears the
parent pointer of every matched child while building a filtered local
slice that the source never assigns back to c.commands; then
resetMaxLengths runs (a value-receiver no-op) and the maxima are updated
from every entry still in c.commands. -/
def Cmd.Remove (fuel : Nat) (w : World) (i : Nat) (targets : List Nat) : World :=
  let w1 :=
    ((w.cmds i).commands).foldl
      (fun wa ch =>
        if targets.contains ch then wa.setCmd ch { wa.cmds ch with parent := none }
        else wa)
      w
  let w2 := Cmd.resetMaxLengths w1 i
  ((w2.cmds i).commands).foldl (fun wa ch => Cmd.updateMaxLengthFrom fuel wa i ch) w2

/-- Cmd.findNext (src/cmd.go lines 1008-1022): scan the children in
insertion order for the first whose name or alias set matches, record the
literal token as its calledAs name and return it; the `matches` slice of
the source stays empty, so the trailing length-one check never fires and
a miss returns nil. -/
def Cmd.findNext (w : World) (i : Nat) (next : String) : World × Option Nat :=
  match ((w.cmds i).commands).find?
      (fun ch => (w.cmds ch).Name == next || (w.cmds ch).HasAlias next) with
  | some ch => (w.setCmd ch { w.cmds ch with calledAsName := next }, some ch)
  | none => (w, none)

/-- BashCompOneRequiredFlag (src/bash_completions.go lines 4-9). -/
def BashCompOneRequiredFlag : String :=
  "cli_annotation_bash_completion_one_required_flag"

/-- Go map indexing on the Annotations side channel. -/
def lookupAnn (l : List (String × List String)) (k : String) : Option (List String) :=
  (l.find? (fun kv => kv.1 == k)).map (fun kv => kv.2)

/-- The VisitAll body of Cmd.validateRequiredFlags (src/cmd.go lines
1031-1039) over the visited flags: skip flags without the one-required
key; on `requiredAnnotation[0]` the Go code indexes without a length
check, so an empty value list is an index out of range (`none`);
otherwise collect the name when the value is "true" and the flag was not
changed. -/
def requiredMissingScan : List GoFlag → Option (List String)
  | [] => some []
  | fl :: rest =>
    match lookupAnn fl.anns BashCompOneRequiredFlag with
    | none => requiredMissingScan rest
    | some [] => none
    | some (v :: _) =>
      if v == "true" && !fl.changed then
        Option.map (fun ms => fl.name :: ms) (requiredMissingScan rest)
      else requiredMissingScan rest

/-- The aggregated message built at src/cmd.go line 1042:
failure.System with the missing names joined by a quoted comma. -/
def requiredFlagsErr (missing : List String) : String :=
  "required flag(s) \"" ++ goJoin "\",\"" missing ++ "\" not set"

/-- Cmd.validateRequiredFlags (src/cmd.go lines 1024-1046).  Returns
`none` for a Go runtime fault (VisitAll on a nil Full pointer, or the
annotation index out of range); otherwise the possibly updated world and
the optional aggregated error. -/
def Cmd.validateRequiredFlags (w : World) (i : Nat) : Option (World × Option String) :=
  if (w.cmds i).disableFlagParsing then some (w, none)
  else
    let r := Cmd.Flags w i
    match r.2 with
    | none => none
    | some fid =>
      match requiredMissingScan ((r.1.flagSets fid).visitOrder) with
      | none => none
      | some missing =>
        some (r.1, if missing.length > 0 then some (requiredFlagsErr missing) else none)

/-! ## Concrete worlds used by the claims -/

/-- The empty FlagSet value (also used for unallocated heap cells and for
the empty process wide CommandLine set of the scenarios). -/
def emptyFS : FlagSet :=
  { fsName := "", sortFlags := true, formal := [] }

/-- A freshly constructed Cmd with the given Use line and every other
field at its Go zero value. -/
def freshCmd (u : String) : Cmd :=
  { use := u, aliases := [], commands := [], parent := none, full := none,
    global := none, parentsGlobal := none, hasGlobalNormalizeFn := false,
    errorBuf := false, isSortedCmds := false, calledAsName := "",
    maxLength := ⟨0, 0, 0⟩, disableFlagParsing := false }

/-- A world holding one fresh root command (heap index 0). -/
def wFreshApp : World :=
  { cmds := fun _ => freshCmd "app", flagSets := fun _ => emptyFS,
    nextFS := 0, commandLine := emptyFS }

/-- A plain string flag named x. -/
def flX : GoFlag :=
  { name := "x", shorthand := "", noOptDefVal := "", anns := [], changed := false }

/-- The world after the first Cmd.Flags call on the fresh root: Full is
heap cell 0, Global still nil. -/
def wC1a : World := (Cmd.Flags wFreshApp 0).1

/-- wC1a after the user registers flag x on the set the first call
returned (the Go idiom cmd.Flags().String(...)). -/
def wC1b : World :=
  wC1a.setFS 0 { wC1a.flagSets 0 with formal := (wC1a.flagSets 0).formal ++ [flX] }

/-- The world for the Remove claim: root (0) with children alpha (1) and
longname (2); the cached maxima are the correct values for both
children, as an earlier Add pair would have left them. -/
def wC3 : World :=
  { cmds := fun j =>
      if j = 0 then
        { freshCmd "root" with commands := [1, 2], maxLength := ⟨8, 13, 8⟩ }
      else if j = 1 then { freshCmd "alpha" with parent := some 0 }
      else if j = 2 then { freshCmd "longname" with parent := some 0 }
      else freshCmd "",
    flagSets := fun _ => emptyFS, nextFS := 0, commandLine := emptyFS }

/-- The world for the Add claim: root (0) and an unrelated command kid (1). -/
def wC4 : World :=
  { cmds := fun j =>
      if j = 0 then freshCmd "root"
      else if j = 1 then freshCmd "kid"
      else freshCmd "",
    flagSets := fun _ => emptyFS, nextFS := 0, commandLine := emptyFS }

/-- The world for the "--" counterexample: the fresh root after one
Cmd.Flags call, so its Full set (cell 0, empty) is allocated. -/
def wC5 : World := (Cmd.Flags wFreshApp 0).1

/-- verbose: a boolean flag with a no-value default. -/
def flVerbose : GoFlag :=
  { name := "verbose", shorthand := "v", noOptDefVal := "true", anns := [], changed := false }

/-- output: a string flag that takes a value token. -/
def flOutput : GoFlag :=
  { name := "output", shorthand := "o", noOptDefVal := "", anns := [], changed := false }

/-- The world for the splitter example: the root command with its Full
set (cell 0) holding verbose and output, as left by user registration
through cmd.Flags(). -/
def wC6 : World :=
  { cmds := fun j =>
      if j = 0 then { freshCmd "app" with full := some 0 } else freshCmd "",
    flagSets := fun j =>
      if j = 0 then { fsName := "app", sortFlags := true, formal := [flVerbose, flOutput] }
      else emptyFS,
    nextFS := 1, commandLine := emptyFS }

/-- Models the user registering one more persistent flag on command `i`:
the Go idiom c.GlobalFlags().AddFlag(fl) (equivalently a
GlobalFlags().String registration); `none` when pflag rejects a
redefinition. -/
def addGlobalFlagTo (w : World) (i : Nat) (fl : GoFlag) : Option World :=
  let r := Cmd.GlobalFlags w i
  match r.2 with
  | none => none
  | some gid =>
    match (r.1.flagSets gid).addFlag fl with
    | none => none
    | some fs => some (r.1.setFS gid fs)

/-- The world for the staleness claim: parent root (0) with child (1)
whose Full set was already merged.  Cell 0 is the merged Full set of the
child (holding its local flag), cell 1 the child Global set, cell 2 the
root Global set. -/
def wC2 : World :=
  { cmds := fun j =>
      if j = 0 then { freshCmd "root" with commands := [1], global := some 2 }
      else if j = 1 then
        { freshCmd "child" with parent := some 0, full := some 0, global := some 1 }
      else freshCmd "",
    flagSets := fun j =>
      if j = 0 then { fsName := "child", sortFlags := true, formal := [flX] }
      else if j = 1 then { fsName := "child", sortFlags := true, formal := [] }
      else if j = 2 then { fsName := "root", sortFlags := true, formal := [] }
      else emptyFS,
    nextFS := 3, commandLine := emptyFS }

/-- The persistent flag added to the root after the child merge. -/
def flNewGlobal : GoFlag :=
  { name := "newglobal", shorthand := "", noOptDefVal := "", anns := [], changed := false }

/-- The world for the dispatch claim: root (0) with child build (1)
aliased b. -/
def wC8 : World :=
  { cmds := fun j =>
      if j = 0 then { freshCmd "root" with commands := [1] }
      else if j = 1 then
        { freshCmd "build stuff" with aliases := ["b"], parent := some 0 }
      else freshCmd "",
    flagSets := fun _ => emptyFS, nextFS := 0, commandLine := emptyFS }

/-- A required flag left unset by the user. -/
def flNameReq : GoFlag :=
  { name := "name", shorthand := "", noOptDefVal := "",
    anns := [(BashCompOneRequiredFlag, ["true"])], changed := false }

/-- A required flag the user did set. -/
def flAgeReq : GoFlag :=
  { name := "age", shorthand := "", noOptDefVal := "",
    anns := [(BashCompOneRequiredFlag, ["true"])], changed := true }

/-- The world for the required-flag claim: a command whose merged Full
set (cell 0) holds the unset required flag name and the set required
flag age; Global (cell 1) is allocated so the Flags accessor returns the
cached Full set. -/
def wC9 : World :=
  { cmds := fun j =>
      if j = 0 then { freshCmd "app" with full := some 0, global := some 1 }
      else freshCmd "",
    flagSets := fun j =>
      if j = 0 then { fsName := "app", sortFlags := true, formal := [flNameReq, flAgeReq] }
      else emptyFS,
    nextFS := 2, commandLine := emptyFS }

/-- A flag whose one-required annotation value list is empty. -/
def flBroken : GoFlag :=
  { name := "broken", shorthand := "", noOptDefVal := "",
    anns := [(BashCompOneRequiredFlag, [])], changed := false }

/-- The world for the index-safety claim: the merged Full set (cell 0)
holds a flag whose one-required annotation maps to the empty list. -/
def wC10 : World :=
  { cmds := fun j =>
      if j = 0 then { freshCmd "app" with full := some 0, global := some 1 }
      else freshCmd "",
    flagSets := fun j =>
      if j = 0 then { fsName := "app", sortFlags := true, formal := [flBroken] }
      else emptyFS,
    nextFS := 2, commandLine := emptyFS }

/-! ## Helper lemmas -/

/-- Writing a FlagSet heap cell leaves every Cmd untouched. -/
theorem setFS_cmds (w : World) (i : Nat) (fs : FlagSet) :
    (w.setFS i fs).cmds = w.cmds := rfl

/-- Membership through the insertion step of the name sort. -/
theorem mem_insertFlagByName {fl g : GoFlag} {l : List GoFlag} :
    g ∈ insertFlagByName fl l ↔ g = fl ∨ g ∈ l := by
  induction l with
  | nil => simp [insertFlagByName]
  | cons x xs ih =>
    by_cases hx : goStrLt x.name fl.name = true
    · simp [insertFlagByName, hx, ih]
      tauto
    · simp [insertFlagByName, hx]

/-- The name sort is a permutation as far as membership goes. -/
theorem mem_sortFlagsByName {g : GoFlag} {l : List GoFlag} :
    g ∈ sortFlagsByName l ↔ g ∈ l := by
  induction l with
  | nil => simp [sortFlagsByName]
  | cons x xs ih => simp [sortFlagsByName, mem_insertFlagByName, ih]

/-- VisitAll visits exactly the registered flags. -/
theorem mem_visitOrder {g : GoFlag} {fs : FlagSet} :
    g ∈ fs.visitOrder ↔ g ∈ fs.formal := by
  unfold FlagSet.visitOrder
  by_cases h : fs.sortFlags = true <;> simp [h, mem_sortFlagsByName]

/-- The condition under which the validateRequiredFlags scan collects a
flag name: the one-required annotation is present with first value
"true" and the flag was not changed. -/
def isMissingRequired (fl : GoFlag) : Bool :=
  match lookupAnn fl.anns BashCompOneRequiredFlag with
  | some (v :: _) => v == "true" && !fl.changed
  | _ => false

/-- The names the scan collects, in visit order. -/
def missingRequiredNames (fs : FlagSet) : List String :=
  (fs.visitOrder.filter isMissingRequired).map GoFlag.name

/-- When no visited flag carries an empty one-required value list, the
scan returns exactly the names of the missing required flags. -/
theorem requiredMissingScan_eq (fls : List GoFlag)
    (hwf : ∀ fl ∈ fls, lookupAnn fl.anns BashCompOneRequiredFlag ≠ some []) :
    requiredMissingScan fls = some ((fls.filter isMissingRequired).map GoFlag.name) := by
  induction fls with
  | nil => simp [requiredMissingScan]
  | cons fl rest ih =>
    have hfl := hwf fl (List.mem_cons_self fl rest)
    have hrest : ∀ g ∈ rest, lookupAnn g.anns BashCompOneRequiredFlag ≠ some [] :=
      fun g hg => hwf g (List.mem_cons_of_mem fl hg)
    rcases hJ : lookupAnn fl.anns BashCompOneRequiredFlag with _ | vals
    · simp [requiredMissingScan, hJ, isMissingRequired, List.filter_cons, ih hrest]
    · rcases vals with _ | ⟨v, vs⟩
      · exact absurd hJ hfl
      · cases hB : (v == "true" && !fl.changed) with
        | false =>
          simp [requiredMissingScan, hJ, isMissingRequired, List.filter_cons, hB, ih hrest]
        | true =>
          simp [requiredMissingScan, hJ, isMissingRequired, List.filter_cons, hB, ih hrest]

/-- The scan hits the out-of-range index exactly when some visited flag
maps the one-required key to the empty list. -/
theorem requiredMissingScan_none_iff (fls : List GoFlag) :
    requiredMissingScan fls = none ↔
      ∃ fl ∈ fls, lookupAnn fl.anns BashCompOneRequiredFlag = some [] := by
  induction fls with
  | nil => simp [requiredMissingScan]
  | cons fl rest ih =>
    rcases hJ : lookupAnn fl.anns BashCompOneRequiredFlag with _ | vals
    · simp [requiredMissingScan, hJ, ih]
    · rcases vals with _ | ⟨v, vs⟩
      · simp [requiredMissingScan, hJ]
      · cases hB : (v == "true" && !fl.changed) with
        | false => simp [requiredMissingScan, hJ, hB, ih]
        | true => simp [requiredMissingScan, hJ, hB, Option.map_eq_none', ih]

/-! ## Claim theorems -/

/-- C1: the claim says the full merged flag set is memoized by the Flags
accessor: created on first access, then the same flag-set object is
returned by consecutive calls with no intervening mutation.  On the code
this fails: Flags.IsFull tests the Global pointer, so while Global is
nil every Flags call allocates a fresh Full set (cells 0 then 1 here on
two consecutive calls with nothing in between), a flag registered on the
first returned set is dropped, and once Global is allocated first the
accessor returns the nil Full pointer. -/
theorem claim1_full_set_not_memoized :
    (Cmd.Flags wFreshApp 0).2 = some 0 ∧
    (Cmd.Flags wC1a 0).2 = some 1 ∧
    (wC1b.flagSets 0).formal.map GoFlag.name = ["x"] ∧
    (Cmd.Flags wC1b 0).2 = some 1 ∧
    ((Cmd.Flags wC1b 0).1.flagSets 1).formal.map GoFlag.name = [] ∧
    (Cmd.Flags (Cmd.GlobalFlags wFreshApp 0).1 0).2 = none := by
  decide

/-- C2: a persistent flag added to an ancestor after a node's full
merged set has been computed (the node's Full pointer is allocated and
IsFull holds) never shows up in the set returned by later Flags calls on
the node: the accessor returns the cached Full cell, which the write to
the ancestor's Global cell leaves untouched. -/
theorem claim2_stale_merged_set (w : World) (node anc fid gid fuel : Nat) (fl : GoFlag)
    (_hanc : anc ∈ w.ancestorsOf node fuel)
    (hfull : (w.cmds node).full = some fid)
    (hglob : (w.cmds node).global.isSome = true)
    (hag : (w.cmds anc).global = some gid)
    (hne : gid ≠ fid)
    (hfr : ((w.flagSets gid).lookup fl.name).isSome = false) :
    (addGlobalFlagTo w anc fl).map (fun w2 => (Cmd.Flags w2 node).2) = some (some fid) ∧
    (addGlobalFlagTo w anc fl).map (fun w2 => (Cmd.Flags w2 node).1.flagSets fid)
      = some (w.flagSets fid) := by
  have hGF : Cmd.GlobalFlags w anc = (w, some gid) := by
    simp [Cmd.GlobalFlags, Flags.IsGlobal, hag]
  have hadd : (w.flagSets gid).addFlag fl
      = some { w.flagSets gid with formal := (w.flagSets gid).formal ++ [fl] } := by
    simp [FlagSet.addFlag, hfr]
  have hstep : addGlobalFlagTo w anc fl
      = some (w.setFS gid { w.flagSets gid with formal := (w.flagSets gid).formal ++ [fl] }) := by
    simp [addGlobalFlagTo, hGF, hadd]
  rw [hstep]
  constructor
  · simp [Cmd.Flags, Flags.IsFull, World.setFS, hglob, hfull]
  · simp [Cmd.Flags, Flags.IsFull, World.setFS, hglob, hfull, Ne.symm hne]

/-- C2 witness: the concrete parent and child of wC2; the child's merged
set (cell 0) still lists only its own flag after newglobal lands on the
root's Global set. -/
theorem claim2_witness :
    (addGlobalFlagTo wC2 0 flNewGlobal).map (fun w2 => (Cmd.Flags w2 1).2) = some (some 0) ∧
    (addGlobalFlagTo wC2 0 flNewGlobal).map (fun w2 => (Cmd.Flags w2 1).1.flagSets 0)
      = some (wC2.flagSets 0) :=
  claim2_stale_merged_set wC2 1 0 0 2 1 flNewGlobal (by decide) (by decide) (by decide)
    (by decide) (by decide) (by decide)

/-- C3: the claim says Remove clears the parent of the matched child,
drops it from the child collection, and recomputes maxLengths from
scratch over the remaining children.  On the code the parent is cleared,
but the filtered slice is never assigned back to c.commands, so the
child stays in the collection, and the value-receiver Reset leaves the
maxima untouched: removing longname from root (children alpha and
longname) leaves commands at both children and the maxima at those of
both children (8, 13, 8) instead of the remaining-only values
(5, 10, 5). -/
theorem claim3_remove_keeps_child_and_stale_maxima :
    ((Cmd.Remove 5 wC3 0 [2]).cmds 2).parent = none ∧
    ((Cmd.Remove 5 wC3 0 [2]).cmds 0).commands = [1, 2] ∧
    ((Cmd.Remove 5 wC3 0 [2]).cmds 0).maxLength = ⟨8, 13, 8⟩ ∧
    ((Cmd.Remove 5 wC3 0 [2]).cmds 0).maxLength ≠ ⟨5, 10, 5⟩ := by
  decide

/-- C4 counterexample: the claim says Add with an argument list
containing the node itself applies no mutation at all.  On the code,
Add(kid, self) on root first makes kid a child of root (parent pointer
set and commands extended) and only then fails on self. -/
theorem claim4_counterexample_partial_mutation :
    (Cmd.Add 5 wC4 0 [1, 0]).2 = true ∧
    ((Cmd.Add 5 wC4 0 [1, 0]).1.cmds 1).parent = some 0 ∧
    ((Cmd.Add 5 wC4 0 [1, 0]).1.cmds 0).commands = [1] := by
  decide

/-- C4 (amended): Add fails whenever the argument list contains the node
itself, but the children strictly before the first occurrence of the
node are added normally first (parent set, maxima updated, appended,
order marked dirty); only the suffix from the first self occurrence on
is left untouched.  When the node is the first argument no mutation
happens, since the folded prefix is empty. -/
theorem claim4_add_self_fails_after_prefix (fuel : Nat) (w : World) (i : Nat)
    (cs : List Nat) (h : i ∈ cs) :
    Cmd.Add fuel w i cs =
      ((cs.takeWhile (fun x => x != i)).foldl (fun wa x => addChildStep fuel wa i x) w,
       true) := by
  induction cs generalizing w with
  | nil => cases h
  | cons x rest ih =>
    by_cases hx : x = i
    · subst hx
      simp [Cmd.Add, List.takeWhile_cons]
    · have hmem : i ∈ rest := by
        rcases List.mem_cons.mp h with h1 | h1
        · exact absurd h1.symm hx
        · exact h1
      have hbne : (x != i) = true := by simpa using hx
      simp [Cmd.Add, hx, List.takeWhile_cons, hbne]
      exact ih _ hmem

/-- C4 witness: the amended statement at the concrete Add(kid, self)
call on wC4. -/
theorem claim4_witness :
    Cmd.Add 5 wC4 0 [1, 0] =
      ((([1, 0].takeWhile (fun x => x != 0)).foldl (fun wa x => addChildStep 5 wa 0 x) wC4),
       true) :=
  claim4_add_self_fails_after_prefix 5 wC4 0 [1, 0] (by decide)

/-- C5 counterexample: the claim says that for every flag set and every
token sequence ending in "--", "a", "-b" the positional result excludes
everything from the "--" on.  On the code, a preceding value-expecting
flag token (here "-x" against an empty flag set) consumes the "--" as
its value, scanning continues, and "a" (a token after the "--") is
returned as positional. -/
theorem claim5_counterexample_dashdash_eaten :
    (stripFlags 5 wC5 ["-x", "--", "a", "-b"] 0).map Prod.snd = some ["a"] ∧
    "a" ∈ ["--", "a", "-b"] := by
  decide

/-- C5 (amended): whenever the scanner examines "--" as a token (rather
than consuming it as the value of an immediately preceding
value-expecting flag token), it terminates at once and returns exactly
the positional tokens accumulated so far, for every flag set (nil
included) and every remainder. -/
theorem claim5_dashdash_terminates_scan (fs : Option FlagSet) (acc rest : List String) :
    stripLoopGo fs ("--" :: rest) acc = some acc := by
  cases fs with
  | none =>
    show stripLoopNil ("--" :: rest) acc = some acc
    rw [stripLoopNil.eq_def]
    simp
  | some f =>
    show some (stripLoop f ("--" :: rest) acc) = some acc
    rw [stripLoop.eq_def]
    simp

/-- C6: on a node whose merged flag set defines the boolean
no-value-default flag verbose and the value-taking string flag output,
the splitter on ["--verbose", "--output", "file.txt", "run"] returns
exactly ["run"]: verbose consumes nothing, output consumes "file.txt". -/
theorem claim6_splitter_example :
    (stripFlags 5 wC6 ["--verbose", "--output", "file.txt", "run"] 0).map Prod.snd
      = some ["run"] := by
  decide

/-- C8: findNext returns a direct child whose derived name equals the
token or whose alias set contains it, recording the literal token as
that child's calledAs name, and returns no child (leaving the world
unchanged) when no direct child matches. -/
theorem claim8_findNext_characterization (w : World) (i : Nat) (tok : String) :
    (∀ ch, (Cmd.findNext w i tok).2 = some ch →
       ch ∈ (w.cmds i).commands ∧
       ((w.cmds ch).Name = tok ∨ (w.cmds ch).HasAlias tok = true) ∧
       (((Cmd.findNext w i tok).1).cmds ch).calledAsName = tok) ∧
    ((Cmd.findNext w i tok).2 = none →
       (Cmd.findNext w i tok).1 = w ∧
       ∀ ch ∈ (w.cmds i).commands,
         (w.cmds ch).Name ≠ tok ∧ (w.cmds ch).HasAlias tok = false) := by
  rcases hfind : ((w.cmds i).commands).find?
      (fun ch => (w.cmds ch).Name == tok || (w.cmds ch).HasAlias tok) with _ | ch0
  · have hres : Cmd.findNext w i tok = (w, none) := by
      unfold Cmd.findNext
      rw [hfind]
    rw [hres]
    refine ⟨fun ch hch => by simp at hch, fun _ => ⟨rfl, fun ch hch => ?_⟩⟩
    have hnot := List.find?_eq_none.mp hfind ch hch
    simpa [not_or] using hnot
  · have hpred := List.find?_some hfind
    have hmem := List.mem_of_find?_eq_some hfind
    have hres : Cmd.findNext w i tok
        = (w.setCmd ch0 { w.cmds ch0 with calledAsName := tok }, some ch0) := by
      unfold Cmd.findNext
      rw [hfind]
    rw [hres]
    refine ⟨fun ch hch => ?_, fun hch => by simp at hch⟩
    have hc : ch0 = ch := by simpa using hch
    subst hc
    refine ⟨hmem, ?_, by simp [World.setCmd]⟩
    simpa using hpred

/-- C8 witness: the root of wC8 dispatched on token b resolves to the
build child (heap index 1) and records b as its calledAs name. -/
theorem claim8_witness :
    (Cmd.findNext wC8 0 "b").2 = some 1 ∧
    (((Cmd.findNext wC8 0 "b").1).cmds 1).calledAsName = "b" := by
  have h : (Cmd.findNext wC8 0 "b").2 = some 1 := by decide
  exact ⟨h, ((claim8_findNext_characterization wC8 0 "b").1 1 h).2.2⟩

/-- C9: with flag parsing enabled and a non-nil merged Full set whose
one-required value lists are all nonempty, validateRequiredFlags fails
exactly when some required flag was not set by the user, and the error
is the single aggregated message listing the names of all such flags
(required flags that were set contribute nothing). -/
theorem claim9_required_flags_aggregated (w : World) (i fid : Nat)
    (hdis : (w.cmds i).disableFlagParsing = false)
    (hf : (Cmd.Flags w i).2 = some fid)
    (hwf : ∀ fl ∈ ((Cmd.Flags w i).1.flagSets fid).formal,
        lookupAnn fl.anns BashCompOneRequiredFlag ≠ some []) :
    (Cmd.validateRequiredFlags w i).map Prod.snd =
      some (if missingRequiredNames ((Cmd.Flags w i).1.flagSets fid) = [] then none
            else some (requiredFlagsErr (missingRequiredNames ((Cmd.Flags w i).1.flagSets fid)))) := by
  have hwf2 : ∀ fl ∈ ((Cmd.Flags w i).1.flagSets fid).visitOrder,
      lookupAnn fl.anns BashCompOneRequiredFlag ≠ some [] :=
    fun fl hfl => hwf fl (mem_visitOrder.mp hfl)
  have hscan := requiredMissingScan_eq _ hwf2
  unfold Cmd.validateRequiredFlags
  rw [hdis]
  simp only [Bool.false_eq_true, if_false]
  rw [hf]
  simp only [hscan]
  simp only [Option.map_some', missingRequiredNames]
  cases hM : (((Cmd.Flags w i).1.flagSets fid).visitOrder.filter isMissingRequired).map GoFlag.name with
  | nil => simp [hM]
  | cons a l => simp [hM]

/-- C9 witness: the concrete wC9 node with required flags name (unset)
and age (set): validation fails listing only name. -/
theorem claim9_witness :
    (Cmd.validateRequiredFlags wC9 0).map Prod.snd
      = some (some (requiredFlagsErr ["name"])) := by
  have h := claim9_required_flags_aggregated wC9 0 0 (by decide) (by decide) (by decide)
  exact h.trans (by decide)

/-- C10: with flag parsing enabled and a non-nil merged Full set,
validateRequiredFlags hits the unchecked index on the one-required
annotation value (a Go index out of range, modelled `none`) exactly when
some flag of the merged set maps the one-required key to an empty list;
it is total under the precondition that every such value list is
nonempty. -/
theorem claim10_required_scan_index_safety (w : World) (i fid : Nat)
    (hdis : (w.cmds i).disableFlagParsing = false)
    (hf : (Cmd.Flags w i).2 = some fid) :
    Cmd.validateRequiredFlags w i = none ↔
      ∃ fl ∈ ((Cmd.Flags w i).1.flagSets fid).formal,
        lookupAnn fl.anns BashCompOneRequiredFlag = some [] := by
  have hiff : requiredMissingScan ((Cmd.Flags w i).1.flagSets fid).visitOrder = none ↔
      ∃ fl ∈ ((Cmd.Flags w i).1.flagSets fid).formal,
        lookupAnn fl.anns BashCompOneRequiredFlag = some [] := by
    rw [requiredMissingScan_none_iff]
    constructor
    · rintro ⟨fl, hm, hp⟩
      exact ⟨fl, mem_visitOrder.mp hm, hp⟩
    · rintro ⟨fl, hm, hp⟩
      exact ⟨fl, mem_visitOrder.mpr hm, hp⟩
  unfold Cmd.validateRequiredFlags
  rw [hdis]
  simp only [Bool.false_eq_true, if_false]
  rw [hf]
  rcases hS : requiredMissingScan ((Cmd.Flags w i).1.flagSets fid).visitOrder with _ | missing
  · simpa [hS] using hiff.mp hS
  · have hne : ¬ ∃ fl ∈ ((Cmd.Flags w i).1.flagSets fid).formal,
        lookupAnn fl.anns BashCompOneRequiredFlag = some [] := by
      intro hex
      rw [← hiff] at hex
      rw [hS] at hex
      exact Option.some_ne_none _ hex
    simp [hS, hne]

/-- C10 witness: the concrete wC10 flag with an empty one-required value
list makes validateRequiredFlags fault. -/
theorem claim10_witness : Cmd.validateRequiredFlags wC10 0 = none :=
  (claim10_required_scan_index_safety wC10 0 0 (by decide) (by decide)).mpr
    ⟨flBroken, by decide, by decide⟩

end CliGo
